import Mathlib

/-!
Verification of the reactive query store (`createQueryStore`) of this repository.

The TypeScript source is shallowly embedded: the store state, the query cache,
the fetch coordinator (`fetch` / `fetchOperation`), the scheduler
(`scheduleNextFetch`), the cache pruner (`pruneCache`), `getData` and
`getQueryKey` are translated into executable Lean definitions.  Asynchrony is
resolved by passing the eventual settlement of the user fetcher (the
`FetchOutcome`) as an explicit input, and promises are identified by numeric
ids so that "returns the very same promise object" is expressible.  Wall-clock
reads (`Date.now()`) become an explicit `now : Int` argument.  User callbacks
(`onError`, `onFetched`) are modelled as recorded effects and are assumed not
to throw.
-/

set_option linter.unusedVariables false

namespace QueryStore

/-- Lexicographic comparison of char lists, mirroring the code-unit string
comparison used by the JavaScript default `Array.prototype.sort()`. -/
def listCharLe : List Char → List Char → Bool
  | [], _ => true
  | _ :: _, [] => false
  | a :: as, b :: bs =>
    if a < b then true
    else if b < a then false
    else listCharLe as bs

/-- String comparison used to sort parameter keys. -/
def strLe (a b : String) : Bool := listCharLe a.toList b.toList

/-- The propositional form of `strLe`, used as the sorting relation. -/
def strLeP (a b : String) : Prop := strLe a b = true

instance : DecidableRel strLeP := fun a b => inferInstanceAs (Decidable (_ = true))

theorem listCharLe_total (as bs : List Char) :
    listCharLe as bs = true ∨ listCharLe bs as = true := by
  induction as generalizing bs with
  | nil => left; rfl
  | cons a as ih =>
    cases bs with
    | nil => right; rfl
    | cons b bs =>
      by_cases hab : a < b
      · left; simp [listCharLe, hab]
      · by_cases hba : b < a
        · right; simp [listCharLe, hba]
        · have hEq : a = b := le_antisymm (not_lt.mp hba) (not_lt.mp hab)
          subst hEq
          rcases ih bs with h | h
          · left; simp [listCharLe, hab, h]
          · right; simp [listCharLe, hab, h]

theorem listCharLe_trans {as bs cs : List Char} (h1 : listCharLe as bs = true)
    (h2 : listCharLe bs cs = true) : listCharLe as cs = true := by
  induction as generalizing bs cs with
  | nil => rfl
  | cons a as ih =>
    cases bs with
    | nil => simp [listCharLe] at h1
    | cons b bs =>
      cases cs with
      | nil => simp [listCharLe] at h2
      | cons c cs =>
        simp only [listCharLe] at h1 h2 ⊢
        by_cases hab : a < b
        · by_cases hbc : b < c
          · simp [lt_trans hab hbc]
          · by_cases hcb : c < b
            · simp [hbc, hcb] at h2
            · have hEq : b = c := le_antisymm (not_lt.mp hcb) (not_lt.mp hbc)
              subst hEq
              simp [hab]
        · by_cases hba : b < a
          · simp [hab, hba] at h1
          · have hEq : a = b := le_antisymm (not_lt.mp hba) (not_lt.mp hab)
            subst hEq
            simp only [lt_irrefl, if_false] at h1 h2 ⊢
            by_cases hac : a < c
            · simp [hac]
            · by_cases hca : c < a
              · simp [hac, hca] at h2
              · have hEq2 : a = c := le_antisymm (not_lt.mp hca) (not_lt.mp hac)
                subst hEq2
                simp only [lt_irrefl, if_false] at h1 h2 ⊢
                exact ih h1 h2

theorem listCharLe_antisymm {as bs : List Char} (h1 : listCharLe as bs = true)
    (h2 : listCharLe bs as = true) : as = bs := by
  induction as generalizing bs with
  | nil =>
    cases bs with
    | nil => rfl
    | cons b bs => simp [listCharLe] at h2
  | cons a as ih =>
    cases bs with
    | nil => simp [listCharLe] at h1
    | cons b bs =>
      simp only [listCharLe] at h1 h2
      by_cases hab : a < b
      · simp [hab, lt_asymm hab] at h2
      · by_cases hba : b < a
        · simp [hab, hba] at h1
        · have hEq : a = b := le_antisymm (not_lt.mp hba) (not_lt.mp hab)
          subst hEq
          simp only [lt_irrefl, if_false] at h1 h2
          exact congrArg (a :: ·) (ih h1 h2)

theorem string_toList_inj {a b : String} (h : a.toList = b.toList) : a = b := by
  cases a; cases b
  simp only [String.toList] at h
  exact congrArg String.mk h

instance : IsTotal String strLeP := ⟨fun a b => listCharLe_total a.toList b.toList⟩

instance : IsTrans String strLeP := ⟨fun _ _ _ => listCharLe_trans⟩

instance : IsAntisymm String strLeP :=
  ⟨fun _ _ h1 h2 => string_toList_inj (listCharLe_antisymm h1 h2)⟩

/-- JSON-serializable parameter values (the values of a `TParams` record). -/
inductive JVal where
  | s (v : String)
  | n (v : Int)
  | b (v : Bool)
  | null
deriving DecidableEq, Repr

/-- A parameter map: association list from parameter name to value, standing
for a plain JavaScript object (keys unique, insertion-ordered). -/
def Params : Type := List (String × JVal)

instance : DecidableEq Params := inferInstanceAs (DecidableEq (List (String × JVal)))

instance {ε α : Type} [DecidableEq ε] [DecidableEq α] : DecidableEq (Except ε α) :=
  fun x y =>
    match x, y with
    | .ok a, .ok b => decidable_of_iff (a = b) (by simp)
    | .error a, .error b => decidable_of_iff (a = b) (by simp)
    | .ok _, .error _ => isFalse (fun h => Except.noConfusion h)
    | .error _, .ok _ => isFalse (fun h => Except.noConfusion h)

/-- First-match association-list lookup (JavaScript property read `obj[key]`). -/
def alookup {β : Type} : List (String × β) → String → Option β
  | [], _ => none
  | (k', v) :: rest, k => if k' = k then some v else alookup rest k

/-- Spread-update of a JavaScript object: `{...obj, [k]: v}` keeps the
position of an existing key and appends a new one. -/
def ainsert {β : Type} (c : List (String × β)) (k : String) (v : β) :
    List (String × β) :=
  if (alookup c k).isSome then
    c.map (fun p => if p.1 = k then (k, v) else p)
  else c ++ [(k, v)]

/-- JSON string escaping for the characters that matter here. -/
def escChar (c : Char) : String :=
  if c = '"' then "\\\"" else if c = '\\' then "\\\\" else String.singleton c

/-- Serialization of a single value, as `JSON.stringify` renders it. -/
def JVal.ser : JVal → String
  | .s v => "\"" ++ String.join (v.toList.map escChar) ++ "\""
  | .n v => toString v
  | .b true => "true"
  | .b false => "false"
  | .null => "null"

/-- Serialization of an array of values, as `JSON.stringify` renders it. -/
def serArr (vs : List JVal) : String :=
  "[" ++ String.intercalate "," (vs.map JVal.ser) ++ "]"

/-- Embedding of `getQueryKey`: `JSON.stringify(Object.keys(params).sort().map(key => params[key]))`. -/
def getQueryKey (params : Params) : String :=
  serArr (((params.map Prod.fst).insertionSort strLeP).map
    (fun k => (alookup params k).getD JVal.null))

theorem alookup_perm {β : Type} {p q : List (String × β)} (h : p.Perm q)
    (hnd : (p.map Prod.fst).Nodup) (k : String) : alookup p k = alookup q k := by
  induction h with
  | nil => rfl
  | cons x h ih =>
    simp only [List.map_cons, List.nodup_cons] at hnd
    simp only [alookup]
    by_cases hx : x.1 = k
    · simp [hx]
    · simp only [hx, if_false]
      exact ih hnd.2
  | swap x y l =>
    simp only [List.map_cons, List.nodup_cons, List.mem_cons] at hnd
    have hxy : y.1 ≠ x.1 := fun hc => hnd.1 (Or.inl hc)
    simp only [alookup]
    by_cases hy : y.1 = k
    · subst hy
      simp [Ne.symm hxy]
    · simp [hy]
  | trans h1 h2 ih1 ih2 =>
    have hnd2 := (h1.map Prod.fst).nodup_iff.mp hnd
    exact (ih1 hnd).trans (ih2 hnd2)

/-- C8: for every pair of parameter maps that contain the same key-to-value
bindings in any insertion order, `getQueryKey` produces identical strings:
the key derivation is deterministic and invariant under key permutation and
value equality. -/
theorem getQueryKey_perm_invariant (p q : Params) (hpq : List.Perm p q)
    (hnd : (p.map Prod.fst).Nodup) : getQueryKey p = getQueryKey q := by
  have hkeys : (p.map Prod.fst).insertionSort strLeP
      = (q.map Prod.fst).insertionSort strLeP := by
    exact List.eq_of_perm_of_sorted
      ((List.perm_insertionSort _ _).trans
        ((hpq.map Prod.fst).trans (List.perm_insertionSort _ _).symm))
      (List.sorted_insertionSort _ _) (List.sorted_insertionSort _ _)
  have hfun : (fun k => (alookup p k).getD JVal.null)
      = (fun k => (alookup q k).getD JVal.null) :=
    funext fun k => by rw [alookup_perm hpq hnd k]
  unfold getQueryKey
  rw [hkeys, hfun]

/-- Witness for C8 at a concrete pair of two-entry maps in opposite insertion
orders. -/
theorem getQueryKey_perm_invariant_witness :
    List.Perm [("b", JVal.n 1), ("a", JVal.s "x")] [("a", JVal.s "x"), ("b", JVal.n 1)]
    ∧ ([("b", JVal.n 1), ("a", JVal.s "x")].map Prod.fst).Nodup
    ∧ getQueryKey [("b", JVal.n 1), ("a", JVal.s "x")]
      = getQueryKey [("a", JVal.s "x"), ("b", JVal.n 1)] :=
  ⟨by decide, by decide,
    getQueryKey_perm_invariant _ _ (by decide) (by decide)⟩

/-- JavaScript numeric durations and timestamps: either a finite integer
number of milliseconds or `Infinity`. -/
inductive Dur where
  | fin (n : Int)
  | inf
deriving DecidableEq, Repr

/-- Test `x ≤ d` for a duration bound `d` (`x ≤ Infinity` is true). -/
def Dur.leOf (x : Int) : Dur → Bool
  | .fin n => decide (x ≤ n)
  | .inf => true

/-- Test `x > d` for a duration bound `d` (`x > Infinity` is false). -/
def Dur.gtOf (x : Int) : Dur → Bool
  | .fin n => decide (n < x)
  | .inf => false

/-- Test `x ≥ d` for a duration bound `d` (`x ≥ Infinity` is false). -/
def Dur.geOf (x : Int) : Dur → Bool
  | .fin n => decide (n ≤ x)
  | .inf => false

/-- Test `d ≤ 0` (`Infinity ≤ 0` is false). -/
def Dur.nonPosB : Dur → Bool
  | .fin n => decide (n ≤ 0)
  | .inf => false

/-- Test whether the duration is `Infinity`. -/
def Dur.isInf : Dur → Bool
  | .fin _ => false
  | .inf => true

/-- Numeric value of a finite duration (only read on branches where the
duration is known finite). -/
def Dur.val : Dur → Int
  | .fin n => n
  | .inf => 0

/-- A JavaScript `Error` value. `isAbortSentinel` models reference equality
with the module-level `ABORT_ERROR` constant. -/
structure ErrorObj where
  name : String := "Error"
  message : String := ""
  isAbortSentinel : Bool := false
deriving DecidableEq, Repr

/-- The `ABORT_ERROR` sentinel thrown when `fetchWithAbortControl` is aborted. -/
def abortErrorSentinel : ErrorObj :=
  { name := "Error", message := "[createQueryStore: AbortError] Fetch interrupted",
    isAbortSentinel := true }

/-- The test on line 913-916: `error === ABORT_ERROR || (error instanceof Error
&& error.name === 'AbortError')`. -/
def isAbortError (e : ErrorObj) : Bool :=
  e.isAbortSentinel || decide (e.name = "AbortError")

/-- The `errorInfo` component of a cache entry. -/
structure ErrorInfo where
  error : ErrorObj
  lastFailedAt : Int
  retryCount : Nat
deriving DecidableEq, Repr

/-- An entry of the query cache (`CacheEntry<TData>`). The source's union type
guarantees that `lastFetchedAt = none` only occurs with `errorInfo` present;
here that is an invariant of engine-written entries rather than a type
constraint. -/
structure CacheEntry (TData : Type) where
  cacheTime : Dur
  data : Option TData
  errorInfo : Option ErrorInfo
  lastFetchedAt : Option Int
deriving DecidableEq

/-- The timestamp `entry.lastFetchedAt ?? entry.errorInfo.lastFailedAt` used by
`pruneCache`. The `0` default is dead for engine-written entries (the source
would throw there). -/
def entryTimestamp {TData : Type} (e : CacheEntry TData) : Int :=
  match e.lastFetchedAt with
  | some t => t
  | none =>
    match e.errorInfo with
    | some i => i.lastFailedAt
    | none => 0

/-- The four values of `QueryStatuses`. -/
inductive QueryStatus where
  | error
  | idle
  | loading
  | success
deriving DecidableEq, Repr

/-- The observable store state (`StoreState<TData, TParams>`), restricted to
the engine-owned fields. -/
structure StoreState (TData : Type) where
  enabled : Bool
  error : Option ErrorObj
  lastFetchedAt : Option Int
  queryCache : List (String × CacheEntry TData)
  queryKey : String
  status : QueryStatus
deriving DecidableEq

/-- The in-flight fetch record `activeFetch = { key, promise? }`; promises are
identified by numeric ids. -/
structure ActiveFetch where
  key : String
  promise : Option Nat
deriving DecidableEq, Repr

/-- The coordinator's transient, non-observable state, together with the
`SubscriptionManager` fields the coordinator reads (`smEnabled`,
`subscriptionCount`). -/
structure Transients where
  activeFetch : Option ActiveFetch := none
  hasAbortController : Bool := false
  hasRefetchTimer : Bool := false
  lastFetchKey : Option String := none
  smEnabled : Bool := true
  subscriptionCount : Nat := 0
deriving DecidableEq, Repr

/-- The `cacheTime` configuration: a constant duration or a per-params
function. -/
inductive CacheTimeCfg where
  | const (d : Dur)
  | func (f : Params → Dur)

/-- Evaluate the configured cache time at the given params
(`cacheTimeIsFunction ? cacheTime(params) : cacheTime`). -/
def CacheTimeCfg.resolve : CacheTimeCfg → Params → Dur
  | .const d, _ => d
  | .func f, p => f p

/-- The literal test `cacheTime === Infinity` on line 877: false whenever the
configured cache time is a function. -/
def CacheTimeCfg.isInfLiteral : CacheTimeCfg → Bool
  | .const .inf => true
  | .const (.fin _) => false
  | .func _ => false

/-- An embedded `FetchOptions` record. `cacheTime` is carried for fidelity but
is never read by the source. -/
structure FetchOptions where
  cacheTime : Option Dur := none
  force : Bool := false
  skipStoreUpdates : Bool := false
  staleTime : Option Dur := none
deriving DecidableEq, Repr

/-- Read `options?.force` with JavaScript optional chaining. -/
def optForce (o : Option FetchOptions) : Bool := (o.map (fun x => x.force)).getD false

/-- Read `!!options?.skipStoreUpdates`. -/
def optSkip (o : Option FetchOptions) : Bool :=
  (o.map (fun x => x.skipStoreUpdates)).getD false

/-- The store configuration after destructuring with defaults (lines 528-546).
User callbacks are modelled as follows: `transform` may fail with the thrown
error, `setData` is an arbitrary state transformer, `onFetched` and `onError`
are recorded as effects and assumed not to throw. `resolvedParams` is the
snapshot `getCurrentResolvedParams` would return. -/
structure Config (TData : Type) where
  resolvedParams : Params
  transform : Option (TData → Params → Except ErrorObj TData) := none
  setData : Option (TData → Params → String → StoreState TData → StoreState TData) := none
  hasOnFetched : Bool := false
  abortInterruptedFetches : Bool := true
  cacheTime : CacheTimeCfg := .const (.fin 604800000)
  disableAutoRefetching : Bool := false
  disableCache : Bool := false
  initialEnabled : Bool := true
  keepPreviousData : Bool := false
  maxRetries : Nat := 3
  retryDelay : Nat → ErrorObj → Dur := fun _ _ => .fin 5000
  staleTime : Dur := .fin 120000

variable {TData : Type}

/-- The shared read `(disableCache ? lastFetchKey === key && state.lastFetchedAt
: queryCache[key]?.lastFetchedAt) || null` (lines 679-682, 733-736). The
`|| null` makes a `0` timestamp read as absent. -/
def readLastFetchedAt (cfg : Config TData) (st : StoreState TData) (tr : Transients)
    (key : String) : Option Int :=
  let raw :=
    if cfg.disableCache then
      if tr.lastFetchKey = some key then st.lastFetchedAt else none
    else (alookup st.queryCache key).bind (fun e => e.lastFetchedAt)
  match raw with
  | some 0 => none
  | x => x

/-- The effective stale time `options?.staleTime ?? staleTime` (lines 670, 739). -/
def effectiveStaleTimeOf (cfg : Config TData) (o : Option FetchOptions) : Dur :=
  (o.bind (fun x => x.staleTime)).getD cfg.staleTime

/-- The per-entry survival test of `pruneCache` (lines 352-356):
`pruneTime - (lastFetchedAt ?? errorInfo.lastFailedAt) <= cacheTime || key === preserve`. -/
def entryIsValid (pruneTime : Int) (preserve : Option String) (k : String)
    (e : CacheEntry TData) : Bool :=
  Dur.leOf (pruneTime - entryTimestamp e) e.cacheTime || decide (preserve = some k)

/-- Embedding of `pruneCache` (lines 1333-1364). The source's
`prunedSomething` short-circuit returns the input object unchanged, which is
value-equal to the filter below. -/
def pruneCache (keepPreviousData : Bool) (keyToPreserve : Option String)
    (st : StoreState TData) (pruneTime : Int) : StoreState TData :=
  let preserve : Option String :=
    match keyToPreserve with
    | some k => some k
    | none => if keepPreviousData && decide (st.queryKey ≠ "") then some st.queryKey else none
  { st with queryCache :=
      st.queryCache.filter (fun p => entryIsValid pruneTime preserve p.1 p.2) }

/-- Key selection shared by `getData`: an explicit params argument derives the
key, otherwise the state's `queryKey` is used (line 1042). -/
def currentKeyOf (st : StoreState TData) (params : Option Params) : String :=
  match params with
  | some p => getQueryKey p
  | none => st.queryKey

/-- Embedding of `getData` (lines 1040-1049). The `decide (t ≠ 0)` conjunct
models the truthiness test `!!cacheEntry?.lastFetchedAt`. -/
def getData (cfg : Config TData) (st : StoreState TData) (params : Option Params)
    (now : Int) : Option TData :=
  if cfg.disableCache then none
  else
    let cacheEntry := alookup st.queryCache (currentKeyOf st params)
    if cfg.keepPreviousData then cacheEntry.bind (fun e => e.data)
    else
      let isExpired :=
        match cacheEntry with
        | some e =>
          match e.lastFetchedAt with
          | some t => decide (t ≠ 0) && Dur.gtOf (now - t) e.cacheTime
          | none => false
        | none => false
      if isExpired then none else cacheEntry.bind (fun e => e.data)

/-- Embedding of `scheduleNextFetch` (lines 665-693). Returns `none` when the
function is a no-op (no timer touched), and `some d` when the existing timer is
replaced by a timer with the computed (unclamped) `timeUntilRefetch = d`. -/
def scheduleNextFetch (cfg : Config TData) (st : StoreState TData) (tr : Transients)
    (params : Params) (options : Option FetchOptions) (now : Int) : Option Int :=
  if cfg.disableAutoRefetching then none
  else
    let effectiveStaleTime := effectiveStaleTimeOf cfg options
    if effectiveStaleTime.nonPosB || effectiveStaleTime.isInf then none
    else
      let currentQueryKey := getQueryKey params
      match readLastFetchedAt cfg st tr currentQueryKey with
      | some t => some (effectiveStaleTime.val - (now - t))
      | none => some effectiveStaleTime.val

/-- Delay actually applied by the host's timer: DOM `setTimeout` clamps
negative timeouts to zero. -/
def setTimeoutDelay (d : Int) : Int := max 0 d

/-- How the synchronous prefix of `fetch` (lines 696-769) exits: an immediate
`null` (disabled), the deduplicated in-flight promise, a cache hit, or falling
through into the fetch operation. -/
inductive PreOutcome (TData : Type) where
  | earlyNull
  | earlyDedup (id : Nat)
  | earlyCached (v : Option TData)
  | proceed
deriving DecidableEq

/-- Result of the synchronous prefix of `fetch`: its exit, the updated state
and transients, a possibly scheduled refetch delay, and whether an in-flight
abort controller was aborted. -/
structure PreResult (TData : Type) where
  outcome : PreOutcome TData
  st : StoreState TData
  tr : Transients
  schedDelay : Option Int := none
  abortedActiveFetch : Bool := false

/-- Embedding of the synchronous prefix of `fetch` (lines 696-769): the
disabled check, in-flight deduplication, the interrupted-fetch abort, the
fresh-cache early return, and the transition to `loading`. -/
def fetchPre (cfg : Config TData) (st : StoreState TData) (tr : Transients)
    (params? : Option Params) (options? : Option FetchOptions) (now : Int) :
    PreResult TData :=
  if !optForce options? && !tr.smEnabled then
    { outcome := .earlyNull, st := st, tr := tr }
  else
    let effectiveParams := params?.getD cfg.resolvedParams
    let currentQueryKey := getQueryKey effectiveParams
    let isLoading := decide (st.status = QueryStatus.loading)
    let skipStoreUpdates := optSkip options?
    let dedup : Option Nat :=
      match tr.activeFetch with
      | some af =>
        if decide (af.key = currentQueryKey) && isLoading && !optForce options? then
          af.promise
        else none
      | none => none
    match dedup with
    | some pid => { outcome := .earlyDedup pid, st := st, tr := tr }
    | none =>
      let doAbort := cfg.abortInterruptedFetches && !skipStoreUpdates
      let tr1 := if doAbort then { tr with hasAbortController := false } else tr
      let aborted := doAbort && tr.hasAbortController
      let proceedResult : PreResult TData :=
        if skipStoreUpdates then
          { outcome := .proceed, st := st, tr := tr1, abortedActiveFetch := aborted }
        else
          let st2 :=
            if st.error.isSome || !isLoading then
              { st with error := none, status := QueryStatus.loading }
            else st
          { outcome := .proceed, st := st2,
            tr := { tr1 with activeFetch := some { key := currentQueryKey, promise := none } },
            abortedActiveFetch := aborted }
      if optForce options? then proceedResult
      else
        let cacheEntry := alookup st.queryCache currentQueryKey
        let errorInfo := cacheEntry.bind (fun e => e.errorInfo)
        let errorRetriesExhausted :=
          match errorInfo with
          | some i => decide (cfg.maxRetries ≤ i.retryCount)
          | none => false
        let lastFetchedAt := readLastFetchedAt cfg st tr1 currentQueryKey
        let isStale :=
          match lastFetchedAt with
          | none => true
          | some t => Dur.geOf (now - t) (effectiveStaleTimeOf cfg options?)
        if !isStale && (errorInfo.isNone || errorRetriesExhausted) then
          let wantSched := !tr1.hasRefetchTimer && decide (0 < tr1.subscriptionCount)
            && decide (cfg.staleTime ≠ Dur.fin 0) && decide (cfg.staleTime ≠ Dur.inf)
          let sched :=
            if wantSched then scheduleNextFetch cfg st tr1 effectiveParams options? now
            else none
          let tr2 := match sched with
            | some _ => { tr1 with hasRefetchTimer := true }
            | none => tr1
          let st1 :=
            if cfg.keepPreviousData && decide (st.queryKey ≠ currentQueryKey) then
              { st with queryKey := currentQueryKey }
            else st
          { outcome := .earlyCached (cacheEntry.bind (fun e => e.data)),
            st := st1, tr := tr2, schedDelay := sched, abortedActiveFetch := aborted }
        else proceedResult

/-- Settlement of the awaited user fetcher: the raw value it resolved to, or
the error it rejected with (non-`Error` rejections arrive already wrapped as
`Error(String(x))`). An abort surfaces as rejection with the sentinel. -/
inductive FetchOutcome (TData : Type) where
  | success (raw : TData)
  | failure (e : ErrorObj)
deriving DecidableEq

/-- The `RainbowError` wrapping a throw from `transform` (lines 795-804); its
name is never `AbortError`. -/
def transformFailedError : ErrorObj :=
  { name := "Error", message := "[createQueryStore]: transform failed",
    isAbortSentinel := false }

/-- The try-body up to and including `transform` (lines 778-804): await the
fetcher, then apply the configured transform, wrapping its throws. The raw and
transformed data types are identified in this embedding. -/
def awaitFetch (cfg : Config TData) (params : Params) (outcome : FetchOutcome TData) :
    Except ErrorObj TData :=
  match outcome with
  | .failure e => .error e
  | .success raw =>
    match cfg.transform with
    | none => .ok raw
    | some f =>
      match f raw params with
      | .ok d => .ok d
      | .error _cause => .error transformFailedError

/-- Result of a settled `fetchOperation`: the value the promise settles to,
the final state and transients, and the recorded side effects. -/
structure OpResult (TData : Type) where
  value : Except ErrorObj (Option TData)
  st : StoreState TData
  tr : Transients
  onErrorCall : Option (ErrorObj × Nat) := none
  retryTimerDelay : Option Dur := none
  schedDelay : Option Int := none
  onFetchedCalled : Bool := false
  errorLogged : Bool := false

/-- Embedding of the catch block of `fetchOperation` (lines 912-1026): the
abort no-op, the `skipStoreUpdates` log-and-return, and the error recording
with retry scheduling. -/
def handleFetchError (cfg : Config TData) (st : StoreState TData) (tr : Transients)
    (currentQueryKey : String) (effectiveParams : Params) (skipStoreUpdates : Bool)
    (e : ErrorObj) (now : Int) : OpResult TData :=
  if isAbortError e then
    { value := .ok none, st := st, tr := tr }
  else if skipStoreUpdates then
    { value := .ok none, st := st, tr := tr, errorLogged := true }
  else
    let typedError := e
    let entry := if cfg.disableCache then none else alookup st.queryCache currentQueryKey
    let currentRetryCount :=
      ((entry.bind (fun en => en.errorInfo)).map (fun i => i.retryCount)).getD 0
    let newCacheTime :=
      (entry.map (fun en => en.cacheTime)).getD (cfg.cacheTime.resolve effectiveParams)
    let newData := entry.bind (fun en => en.data)
    let newLastFetchedAt := entry.bind (fun en => en.lastFetchedAt)
    if currentRetryCount < cfg.maxRetries then
      let retryTimer : Option Dur :=
        if 0 < tr.subscriptionCount then
          let d := cfg.retryDelay currentRetryCount typedError
          if d = Dur.inf then none else some d
        else none
      { value := .ok none
        st := { st with
          error := some typedError
          queryCache := ainsert st.queryCache currentQueryKey
            { cacheTime := newCacheTime, data := newData,
              errorInfo := some { error := typedError, lastFailedAt := now,
                                  retryCount := currentRetryCount + 1 },
              lastFetchedAt := newLastFetchedAt }
          queryKey := if cfg.keepPreviousData then currentQueryKey else st.queryKey
          status := QueryStatus.error }
        tr := match retryTimer with
          | some _ => { tr with hasRefetchTimer := true }
          | none => tr
        onErrorCall := some (typedError, currentRetryCount)
        retryTimerDelay := retryTimer
        errorLogged := true }
    else
      { value := .ok none
        st := { st with
          error := some typedError
          queryCache := ainsert st.queryCache currentQueryKey
            { cacheTime := newCacheTime, data := newData,
              errorInfo := some { error := typedError, lastFailedAt := now,
                                  retryCount := cfg.maxRetries },
              lastFetchedAt := newLastFetchedAt }
          queryKey := if cfg.keepPreviousData then currentQueryKey else st.queryKey
          status := QueryStatus.error }
        tr := tr
        onErrorCall := some (typedError, currentRetryCount)
        errorLogged := true }

/-- Embedding of the success path of `fetchOperation` after `transform`
(lines 815-911): the atomic success write with optional `setData`, pruning,
`lastFetchKey`, refetch scheduling, and the guarded `onFetched` call. -/
def successCommit (cfg : Config TData) (st : StoreState TData) (tr : Transients)
    (currentQueryKey : String) (effectiveParams : Params)
    (options? : Option FetchOptions) (data : TData) (now : Int) : OpResult TData :=
  let ns0 := { st with
    error := (none : Option ErrorObj)
    lastFetchedAt := some now
    queryKey := if cfg.keepPreviousData then currentQueryKey else st.queryKey
    status := QueryStatus.success }
  let freshEntry : CacheEntry TData :=
    { cacheTime := cfg.cacheTime.resolve effectiveParams, data := some data,
      errorInfo := none, lastFetchedAt := some now }
  let metadataEntry : CacheEntry TData :=
    { cacheTime := cfg.cacheTime.resolve effectiveParams, data := none,
      errorInfo := none, lastFetchedAt := some now }
  let ns1 :=
    if cfg.setData.isNone && !cfg.disableCache then
      { ns0 with queryCache := ainsert ns0.queryCache currentQueryKey freshEntry }
    else
      match cfg.setData with
      | some f =>
        let nsU := f data effectiveParams currentQueryKey ns0
        if !cfg.disableCache then
          { nsU with queryCache := ainsert nsU.queryCache currentQueryKey metadataEntry }
        else nsU
      | none => ns0
  let ns2 :=
    if cfg.disableCache || cfg.cacheTime.isInfLiteral then ns1
    else pruneCache cfg.keepPreviousData (some currentQueryKey) ns1 now
  let tr1 := { tr with lastFetchKey := some currentQueryKey }
  let sched := scheduleNextFetch cfg ns2 tr1 effectiveParams options? now
  { value := .ok (some data)
    st := ns2
    tr := match sched with
      | some _ => { tr1 with hasRefetchTimer := true }
      | none => tr1
    schedDelay := sched
    onFetchedCalled := cfg.hasOnFetched }

/-- The finally block (lines 1027-1029): `if (!skipStoreUpdates) activeFetch = null`. -/
def clearActiveFetchFinally (skipStoreUpdates : Bool) (r : OpResult TData) : OpResult TData :=
  if skipStoreUpdates then r else { r with tr := { r.tr with activeFetch := none } }

/-- Embedding of `fetchOperation` (lines 771-1030) as a function of the
fetcher's settlement. -/
def fetchOperation (cfg : Config TData) (st : StoreState TData) (tr : Transients)
    (currentQueryKey : String) (effectiveParams : Params)
    (options? : Option FetchOptions) (skipStoreUpdates : Bool)
    (outcome : FetchOutcome TData) (now : Int) : OpResult TData :=
  clearActiveFetchFinally skipStoreUpdates
    (match awaitFetch cfg effectiveParams outcome with
     | .error e =>
       handleFetchError cfg st tr currentQueryKey effectiveParams skipStoreUpdates e now
     | .ok data =>
       if skipStoreUpdates then
         { value := .ok (some data), st := st, tr := tr }
       else successCommit cfg st tr currentQueryKey effectiveParams options? data now)

/-- What a call to `fetch` returns: the in-flight promise object it
deduplicated to (identified by id), or a promise of this call together with
the value it settles to. -/
inductive FetchRet (TData : Type) where
  | promiseOf (id : Nat)
  | settled (v : Except ErrorObj (Option TData))
deriving DecidableEq

/-- Result of a full `fetch` call, observed after its promise settles. -/
structure FetchResult (TData : Type) where
  ret : FetchRet TData
  st : StoreState TData
  tr : Transients
  fetcherCalled : Bool := false
  onErrorCall : Option (ErrorObj × Nat) := none
  retryTimerDelay : Option Dur := none
  schedDelay : Option Int := none
  onFetchedCalled : Bool := false
  errorLogged : Bool := false
  abortedActiveFetch : Bool := false

/-- Embedding of `fetch` (lines 696-1038). When the call proceeds past the
synchronous prefix without `skipStoreUpdates`, line 1034 stores
`{ key, promise := freshPromiseId }` in `activeFetch` while the operation is
in flight; the operation's finally clears it again at settlement, which is the
point this function observes. -/
def fetch (cfg : Config TData) (st : StoreState TData) (tr : Transients)
    (params? : Option Params) (options? : Option FetchOptions)
    (now : Int) (outcome : FetchOutcome TData) (freshPromiseId : Nat) :
    FetchResult TData :=
  let pre := fetchPre cfg st tr params? options? now
  match pre.outcome with
  | .earlyNull =>
    { ret := .settled (.ok none), st := pre.st, tr := pre.tr }
  | .earlyDedup pid =>
    { ret := .promiseOf pid, st := pre.st, tr := pre.tr }
  | .earlyCached v =>
    { ret := .settled (.ok v), st := pre.st, tr := pre.tr,
      schedDelay := pre.schedDelay, abortedActiveFetch := pre.abortedActiveFetch }
  | .proceed =>
    let effectiveParams := params?.getD cfg.resolvedParams
    let currentQueryKey := getQueryKey effectiveParams
    let skipStoreUpdates := optSkip options?
    let op := fetchOperation cfg pre.st pre.tr currentQueryKey effectiveParams
      options? skipStoreUpdates outcome now
    { ret := .settled op.value, st := op.st, tr := op.tr, fetcherCalled := true,
      onErrorCall := op.onErrorCall, retryTimerDelay := op.retryTimerDelay,
      schedDelay := op.schedDelay, onFetchedCalled := op.onFetchedCalled,
      errorLogged := op.errorLogged, abortedActiveFetch := pre.abortedActiveFetch }

theorem alookup_eq_none_iff {β : Type} (c : List (String × β)) (k : String) :
    alookup c k = none ↔ k ∉ c.map Prod.fst := by
  induction c with
  | nil => simp [alookup]
  | cons hd tl ih =>
    simp only [alookup, List.map_cons, List.mem_cons]
    by_cases h : hd.1 = k
    · rw [if_pos h]
      simp [h]
    · rw [if_neg h, ih]
      have h' : ¬ k = hd.1 := fun hc => h hc.symm
      simp [h']

theorem alookup_append {β : Type} (a b : List (String × β)) (k : String) :
    alookup (a ++ b) k
      = match alookup a k with
        | some v => some v
        | none => alookup b k := by
  induction a with
  | nil => simp [alookup]
  | cons hd tl ih =>
    simp only [List.cons_append, alookup]
    by_cases h : hd.1 = k
    · rw [if_pos h, if_pos h]
    · rw [if_neg h, if_neg h]
      exact ih

theorem alookup_mapReplace_self {β : Type} (c : List (String × β)) (k : String) (v : β)
    (h : (alookup c k).isSome) :
    alookup (c.map (fun p => if p.1 = k then (k, v) else p)) k = some v := by
  induction c with
  | nil => simp [alookup] at h
  | cons hd tl ih =>
    simp only [List.map_cons]
    by_cases hk : hd.1 = k
    · rw [if_pos hk]
      simp [alookup]
    · rw [if_neg hk]
      simp only [alookup, if_neg hk]
      simp only [alookup, if_neg hk] at h
      exact ih h

theorem alookup_mapReplace_ne {β : Type} (c : List (String × β)) (k k' : String) (v : β)
    (h : k' ≠ k) :
    alookup (c.map (fun p => if p.1 = k then (k, v) else p)) k' = alookup c k' := by
  induction c with
  | nil => rfl
  | cons hd tl ih =>
    simp only [List.map_cons]
    by_cases hk : hd.1 = k
    · rw [if_pos hk]
      have h1 : ¬ (k = k') := fun hc => h hc.symm
      have h2 : ¬ (hd.1 = k') := fun hc => h1 (hk.symm.trans hc)
      simp only [alookup, if_neg h1, if_neg h2, ih]
    · rw [if_neg hk]
      simp only [alookup]
      by_cases hk' : hd.1 = k'
      · rw [if_pos hk', if_pos hk']
      · rw [if_neg hk', if_neg hk', ih]

theorem alookup_ainsert_self {β : Type} (c : List (String × β)) (k : String) (v : β) :
    alookup (ainsert c k v) k = some v := by
  unfold ainsert
  split
  case isTrue h => exact alookup_mapReplace_self c k v h
  case isFalse h =>
    rw [alookup_append]
    have : alookup c k = none := by
      cases hc : alookup c k with
      | none => rfl
      | some w => rw [hc] at h; simp at h
    simp [this, alookup]

theorem alookup_ainsert_ne {β : Type} (c : List (String × β)) (k k' : String) (v : β)
    (h : k' ≠ k) : alookup (ainsert c k v) k' = alookup c k' := by
  unfold ainsert
  split
  · exact alookup_mapReplace_ne c k k' v h
  · rw [alookup_append]
    have h' : ¬ k = k' := fun hc => h hc.symm
    cases hc : alookup c k' with
    | none => simp [alookup, h']
    | some w => simp

theorem mapReplace_keys {β : Type} (c : List (String × β)) (k : String) (v : β) :
    (c.map (fun p => if p.1 = k then (k, v) else p)).map Prod.fst
      = c.map Prod.fst := by
  induction c with
  | nil => rfl
  | cons hd tl ih =>
    simp only [List.map_cons, ih]
    by_cases hk : hd.1 = k
    · rw [if_pos hk, hk]
    · rw [if_neg hk]

theorem ainsert_keys_nodup {β : Type} (c : List (String × β)) (k : String) (v : β)
    (h : (c.map Prod.fst).Nodup) : ((ainsert c k v).map Prod.fst).Nodup := by
  unfold ainsert
  split
  case isTrue hs =>
    rw [mapReplace_keys]
    exact h
  case isFalse hs =>
    have hmem : k ∉ c.map Prod.fst := by
      rw [← alookup_eq_none_iff]
      cases hc : alookup c k with
      | none => rfl
      | some w => rw [hc] at hs; simp at hs
    simp only [List.map_append, List.map_cons, List.map_nil]
    rw [List.nodup_append]
    refine ⟨h, List.nodup_singleton k, ?_⟩
    intro a ha hb
    rw [List.mem_singleton] at hb
    subst hb
    exact hmem ha

theorem alookup_filter {β : Type} (c : List (String × β))
    (hnd : (c.map Prod.fst).Nodup) (p : String → β → Bool) (k : String) :
    alookup (c.filter (fun x => p x.1 x.2)) k
      = match alookup c k with
        | some v => if p k v then some v else none
        | none => none := by
  induction c with
  | nil => simp [alookup]
  | cons hd tl ih =>
    simp only [List.map_cons, List.nodup_cons] at hnd
    by_cases hk : hd.1 = k
    · subst hk
      by_cases hp : p hd.1 hd.2
      · simp [List.filter_cons, hp, alookup]
      · have hnone : alookup (tl.filter (fun x => p x.1 x.2)) hd.1 = none := by
          rw [alookup_eq_none_iff]
          intro hc
          exact hnd.1 (List.map_subset Prod.fst (List.filter_sublist _).subset hc)
        simp [List.filter_cons, hp, alookup, hnone]
    · by_cases hp : p hd.1 hd.2
      · simp [List.filter_cons, hp, alookup, hk, ih hnd.2]
      · simp [List.filter_cons, hp, alookup, hk, ih hnd.2]

theorem Dur.gtOf_eq_not_leOf (x : Int) (d : Dur) : Dur.gtOf x d = !Dur.leOf x d := by
  cases d with
  | inf => rfl
  | fin n =>
    simp only [Dur.gtOf, Dur.leOf, ← decide_not]
    congr 1
    exact propext (Iff.symm Int.not_le)

/-- C4 (amended): on the pruning pass performed by a successful cache write
(`setData` not configured, caching enabled, finite literal cache time),
exactly one key is exempt from removal — the current query key, whose freshly
written entry always survives — and every other surviving entry satisfies
`now - (lastFetchedAt ?? errorInfo.lastFailedAt) ≤ cacheTime`. The previous
`queryKey` held in state enjoys no exemption, even with `keepPreviousData`. -/
theorem successCommit_prune_spec (cfg : Config TData) (st : StoreState TData)
    (tr : Transients) (key : String) (params : Params)
    (options? : Option FetchOptions) (d : TData) (now : Int)
    (hnd : (st.queryCache.map Prod.fst).Nodup)
    (hdc : cfg.disableCache = false) (hinf : cfg.cacheTime.isInfLiteral = false)
    (hsd : cfg.setData = none) :
    alookup (successCommit cfg st tr key params options? d now).st.queryCache key
      = some { cacheTime := cfg.cacheTime.resolve params, data := some d,
               errorInfo := none, lastFetchedAt := some now }
    ∧ ∀ k', k' ≠ key →
        alookup (successCommit cfg st tr key params options? d now).st.queryCache k'
          = match alookup st.queryCache k' with
            | some e =>
              if Dur.leOf (now - entryTimestamp e) e.cacheTime then some e else none
            | none => none := by
  have hsd' : cfg.setData.isNone = true := by rw [hsd]; rfl
  simp only [successCommit, hsd', hdc, Bool.not_false, Bool.and_self, if_true,
    hinf, Bool.or_self, Bool.false_eq_true, if_false, pruneCache]
  constructor
  · rw [alookup_filter _ (ainsert_keys_nodup _ _ _ hnd), alookup_ainsert_self]
    simp [entryIsValid]
  · intro k' hk'
    rw [alookup_filter _ (ainsert_keys_nodup _ _ _ hnd),
      alookup_ainsert_ne _ _ _ _ hk']
    cases he : alookup st.queryCache k' with
    | none => rfl
    | some e =>
      have hne : (some key = some k') = False := by
        have h' : ¬ key = k' := fun hc => hk' hc.symm
        simp [h']
      simp [entryIsValid, hne]

/-- Configuration for the C4 counterexample: `keepPreviousData` enabled. -/
def cfgC4 : Config Int := { resolvedParams := [], keepPreviousData := true }

/-- State for the C4 counterexample: the previous `queryKey` is `"A"`, whose
cache entry has expired (written at time 0 with a 10 ms cache time). -/
def stC4 : StoreState Int :=
  { enabled := true, error := none, lastFetchedAt := some 0,
    queryCache := [("A", { cacheTime := Dur.fin 10, data := some 1,
                           errorInfo := none, lastFetchedAt := some 0 })],
    queryKey := "A", status := QueryStatus.success }

/-- C4 counterexample: with `keepPreviousData` enabled and `"A"` being the
previous `queryKey` held in state, the pruning pass of a successful cache
write for key `"B"` still removes the expired entry of `"A"` — the source
passes `keyToPreserve = currentQueryKey` to `pruneCache`, so `preserve` never
falls back to the state's `queryKey` and only one key is exempt, refuting the
claimed second exemption. -/
theorem pruneOnSuccess_removes_previous_key :
    cfgC4.keepPreviousData = true
    ∧ stC4.queryKey = "A"
    ∧ (alookup stC4.queryCache "A").isSome = true
    ∧ alookup (successCommit cfgC4 stC4 {} "B" [] none (2 : Int) 1000).st.queryCache "A"
      = none := by decide

/-- Witness for C4 at a concrete expired-plus-current cache. -/
theorem successCommit_prune_spec_witness :
    ((stC4.queryCache.map Prod.fst).Nodup)
    ∧ alookup (successCommit cfgC4 stC4 {} "B" [] none (2 : Int) 1000).st.queryCache "B"
      = some { cacheTime := cfgC4.cacheTime.resolve [], data := some 2,
               errorInfo := none, lastFetchedAt := some 1000 }
    ∧ alookup (successCommit cfgC4 stC4 {} "B" [] none (2 : Int) 1000).st.queryCache "A"
      = none := by
  have h := successCommit_prune_spec cfgC4 stC4 {} "B" [] none (2 : Int) 1000
    (by decide) rfl rfl rfl
  refine ⟨by decide, h.1, ?_⟩
  rw [h.2 "A" (by decide)]
  decide

/-- C7: `getData` returns null when caching is disabled; with
`keepPreviousData` it returns the cached data for the key regardless of
expiry (or null when absent); otherwise it returns the cached data exactly
when `now - lastFetchedAt ≤ cacheTime` and null when the entry is expired or
absent. The positive-timestamp hypothesis reflects wall-clock reads
(`Date.now() > 0`); the final clause covers error-only entries, whose data is
null for every engine-written entry. -/
theorem getData_spec (cfg : Config TData) (st : StoreState TData)
    (params : Option Params) (now : Int) :
    (cfg.disableCache = true → getData cfg st params now = none)
    ∧ (cfg.disableCache = false → cfg.keepPreviousData = true →
        getData cfg st params now
          = (alookup st.queryCache (currentKeyOf st params)).bind (fun e => e.data))
    ∧ (cfg.disableCache = false → cfg.keepPreviousData = false →
        (alookup st.queryCache (currentKeyOf st params) = none →
          getData cfg st params now = none)
        ∧ (∀ e, alookup st.queryCache (currentKeyOf st params) = some e →
            (∀ t, e.lastFetchedAt = some t → 0 < t →
              getData cfg st params now
                = if Dur.leOf (now - t) e.cacheTime = true then e.data else none)
            ∧ (e.lastFetchedAt = none → e.data = none →
                getData cfg st params now = none))) := by
  refine ⟨fun hdc => by simp [getData, hdc], fun hdc hkp => by simp [getData, hdc, hkp],
    fun hdc hkp => ⟨fun habs => by simp [getData, hdc, hkp, habs], fun e he => ⟨?_, ?_⟩⟩⟩
  · intro t ht hpos
    have hnz : decide (t ≠ 0) = true := by simp [Int.ne_of_gt hpos]
    simp only [getData, hdc, Bool.false_eq_true, if_false, hkp, he, ht, hnz,
      Bool.true_and, Dur.gtOf_eq_not_leOf]
    cases hle : Dur.leOf (now - t) e.cacheTime with
    | true => simp [hle]
    | false => simp [hle]
  · intro ht hdata
    simp [getData, hdc, hkp, he, ht, hdata]

/-- Configuration for the C7 witness. -/
def cfgC7 : Config Int := { resolvedParams := [] }

/-- State for the C7 witness: one fresh entry under the current key. -/
def stC7 : StoreState Int :=
  { enabled := true, error := none, lastFetchedAt := some 30,
    queryCache := [("K", { cacheTime := Dur.fin 100, data := some 7,
                           errorInfo := none, lastFetchedAt := some 30 })],
    queryKey := "K", status := QueryStatus.success }

/-- Witness for C7: a fresh cached entry is returned. -/
theorem getData_spec_witness :
    cfgC7.disableCache = false
    ∧ alookup stC7.queryCache (currentKeyOf stC7 none)
      = some { cacheTime := Dur.fin 100, data := some 7,
               errorInfo := none, lastFetchedAt := some 30 }
    ∧ getData cfgC7 stC7 none 50 = some 7 := by
  refine ⟨rfl, by decide, ?_⟩
  have h := (((getData_spec cfgC7 stC7 none 50).2.2 rfl rfl).2
    { cacheTime := Dur.fin 100, data := some 7, errorInfo := none,
      lastFetchedAt := some 30 } (by decide)).1 30 (by decide) (by decide)
  rw [h]
  decide

/-- C9: `scheduleNextFetch` is a no-op when auto-refetch is disabled or the
effective stale time is non-positive or infinite; otherwise the delay of the
timer it installs equals `max 0 (effectiveStaleTime - (now - lastFetchedAt))`
when a last-fetch timestamp is present and `effectiveStaleTime` when it is
absent (the `max 0` being the host timer's clamping of the negative values
the source may pass to `setTimeout`). -/
theorem scheduleNextFetch_spec (cfg : Config TData) (st : StoreState TData)
    (tr : Transients) (params : Params) (options : Option FetchOptions) (now : Int) :
    ((cfg.disableAutoRefetching = true
        ∨ (effectiveStaleTimeOf cfg options).nonPosB = true
        ∨ effectiveStaleTimeOf cfg options = Dur.inf) →
      scheduleNextFetch cfg st tr params options now = none)
    ∧ (cfg.disableAutoRefetching = false →
        (effectiveStaleTimeOf cfg options).nonPosB = false →
        effectiveStaleTimeOf cfg options ≠ Dur.inf →
        ∃ d, scheduleNextFetch cfg st tr params options now = some d
          ∧ setTimeoutDelay d
            = match readLastFetchedAt cfg st tr (getQueryKey params) with
              | some t => max 0 ((effectiveStaleTimeOf cfg options).val - (now - t))
              | none => (effectiveStaleTimeOf cfg options).val) := by
  constructor
  · intro h
    rcases h with h | h | h
    · simp [scheduleNextFetch, h]
    · simp [scheduleNextFetch, h]
    · cases hd : cfg.disableAutoRefetching with
      | true => simp [scheduleNextFetch, hd]
      | false => simp [scheduleNextFetch, hd, h, Dur.isInf]
  · intro hauto hpos hinf
    cases hest : effectiveStaleTimeOf cfg options with
    | inf => exact absurd hest hinf
    | fin n =>
      have hn : ¬ n ≤ 0 := by
        have := hpos
        rw [hest] at this
        simpa [Dur.nonPosB] using this
      simp only [scheduleNextFetch, hauto, Bool.false_eq_true, if_false, hest,
        Dur.nonPosB, Dur.isInf, Bool.or_false, decide_eq_true_eq]
      rw [if_neg hn]
      cases hlf : readLastFetchedAt cfg st tr (getQueryKey params) with
      | some t =>
        refine ⟨Dur.val (Dur.fin n) - (now - t), rfl, ?_⟩
        simp [setTimeoutDelay]
      | none =>
        refine ⟨Dur.val (Dur.fin n), rfl, ?_⟩
        simp only [setTimeoutDelay, Dur.val]
        exact max_eq_right (le_of_lt (Int.lt_of_not_ge hn))

/-- Transients for the C9 witness: a previous fetch for the current key. -/
def trC9 : Transients := { lastFetchKey := some (getQueryKey []), smEnabled := true }

/-- Configuration for the C9 witness: a 100 ms stale time. -/
def cfgC9 : Config Int := { resolvedParams := [], staleTime := Dur.fin 100 }

/-- State for the C9 witness: last fetched at time 80. -/
def stC9 : StoreState Int :=
  { enabled := true, error := none, lastFetchedAt := some 80,
    queryCache := [(getQueryKey [], { cacheTime := Dur.fin 1000, data := some 1,
                                      errorInfo := none, lastFetchedAt := some 80 })],
    queryKey := getQueryKey [], status := QueryStatus.success }

/-- Witness for C9: at time 100 with a fetch recorded at 80 and a 100 ms stale
time, the scheduled delay is 80. -/
theorem scheduleNextFetch_spec_witness :
    cfgC9.disableAutoRefetching = false
    ∧ ∃ d, scheduleNextFetch cfgC9 stC9 trC9 [] none 100 = some d
        ∧ setTimeoutDelay d = 80 := by
  refine ⟨rfl, ?_⟩
  obtain ⟨d, hd, hs⟩ := (scheduleNextFetch_spec cfgC9 stC9 trC9 [] none 100).2
    rfl (by decide) (by decide)
  refine ⟨d, hd, ?_⟩
  rw [hs]
  decide

/-- C3: a fetch whose fetcher rejects with the `ABORT_ERROR` sentinel or an
error named `AbortError` resolves to null, and the error handler leaves the
state unchanged: no cache write, no status change, no retry timer, no retry
counter increment, no `onError` call, no log. -/
theorem fetchOperation_abort_noop (cfg : Config TData) (st : StoreState TData)
    (tr : Transients) (key : String) (params : Params)
    (options? : Option FetchOptions) (skip : Bool) (e : ErrorObj) (now : Int)
    (h : isAbortError e = true) :
    (fetchOperation cfg st tr key params options? skip (.failure e) now).value
      = Except.ok none
    ∧ (fetchOperation cfg st tr key params options? skip (.failure e) now).st = st
    ∧ (fetchOperation cfg st tr key params options? skip (.failure e) now).onErrorCall
      = none
    ∧ (fetchOperation cfg st tr key params options? skip (.failure e) now).retryTimerDelay
      = none
    ∧ (fetchOperation cfg st tr key params options? skip (.failure e) now).tr.hasRefetchTimer
      = tr.hasRefetchTimer
    ∧ (fetchOperation cfg st tr key params options? skip (.failure e) now).errorLogged
      = false := by
  simp only [fetchOperation, awaitFetch, handleFetchError, h, if_true,
    clearActiveFetchFinally]
  cases skip <;> simp

/-- Witness for C3 at the abort sentinel with an entry-bearing cache. -/
theorem fetchOperation_abort_noop_witness :
    isAbortError abortErrorSentinel = true
    ∧ (fetchOperation cfgC7 stC7 { hasRefetchTimer := true } "K" [] none false
        (.failure abortErrorSentinel) 60).value = Except.ok (none : Option Int)
    ∧ (fetchOperation cfgC7 stC7 { hasRefetchTimer := true } "K" [] none false
        (.failure abortErrorSentinel) 60).st = stC7 := by
  have h := fetchOperation_abort_noop cfgC7 stC7 { hasRefetchTimer := true } "K" []
    none false abortErrorSentinel 60 (by decide)
  exact ⟨by decide, h.1, h.2.1⟩

/-- C10: a `skipStoreUpdates` fetch whose fetcher or transform throws a
non-abort error resolves to null with no observable side effect: `onError` is
not invoked, no `errorInfo` is recorded, no retry timer is scheduled, state
(status, error, cache) is untouched, and `activeFetch` is neither cleared nor
overwritten. -/
theorem fetchOperation_skip_failure_noop (cfg : Config TData) (st : StoreState TData)
    (tr : Transients) (key : String) (params : Params)
    (options? : Option FetchOptions) (outcome : FetchOutcome TData)
    (e : ErrorObj) (now : Int)
    (haw : awaitFetch cfg params outcome = Except.error e)
    (hna : isAbortError e = false) :
    (fetchOperation cfg st tr key params options? true outcome now).value
      = Except.ok none
    ∧ (fetchOperation cfg st tr key params options? true outcome now).st = st
    ∧ (fetchOperation cfg st tr key params options? true outcome now).tr = tr
    ∧ (fetchOperation cfg st tr key params options? true outcome now).onErrorCall
      = none
    ∧ (fetchOperation cfg st tr key params options? true outcome now).retryTimerDelay
      = none := by
  simp only [fetchOperation, haw, handleFetchError, hna, Bool.false_eq_true,
    if_false, if_true, clearActiveFetchFinally]
  simp

/-- Witness for C10: a plain fetcher rejection under `skipStoreUpdates`. -/
theorem fetchOperation_skip_failure_noop_witness :
    awaitFetch cfgC7 [] (.failure { name := "Error", message := "boom" })
      = Except.error { name := "Error", message := "boom" }
    ∧ isAbortError { name := "Error", message := "boom" } = false
    ∧ (fetchOperation cfgC7 stC7 trC9 "K" [] none true
        (.failure { name := "Error", message := "boom" }) 60).value
      = Except.ok (none : Option Int)
    ∧ (fetchOperation cfgC7 stC7 trC9 "K" [] none true
        (.failure { name := "Error", message := "boom" }) 60).tr = trC9 := by
  have h := fetchOperation_skip_failure_noop cfgC7 stC7 trC9 "K" [] none
    (.failure { name := "Error", message := "boom" })
    { name := "Error", message := "boom" } 60 rfl (by decide)
  exact ⟨rfl, by decide, h.1, h.2.2.1⟩

theorem clearActiveFetchFinally_value (skip : Bool) (r : OpResult TData) :
    (clearActiveFetchFinally skip r).value = r.value := by
  unfold clearActiveFetchFinally
  split <;> rfl

theorem handleFetchError_value (cfg : Config TData) (st : StoreState TData)
    (tr : Transients) (key : String) (params : Params) (skip : Bool)
    (e : ErrorObj) (now : Int) :
    (handleFetchError cfg st tr key params skip e now).value = Except.ok none := by
  simp only [handleFetchError]
  repeat' split
  all_goals rfl

theorem fetchOperation_value_ok (cfg : Config TData) (st : StoreState TData)
    (tr : Transients) (key : String) (params : Params)
    (options? : Option FetchOptions) (skip : Bool) (outcome : FetchOutcome TData)
    (now : Int) :
    ∃ d, (fetchOperation cfg st tr key params options? skip outcome now).value
      = Except.ok d := by
  unfold fetchOperation
  rw [clearActiveFetchFinally_value]
  cases haw : awaitFetch cfg params outcome with
  | error e => exact ⟨none, handleFetchError_value cfg st tr key params skip e now⟩
  | ok d =>
    cases skip with
    | true => exact ⟨some d, rfl⟩
    | false => exact ⟨some d, rfl⟩

/-- C2: the promise returned by `fetch` never rejects — every settled result
is a resolution with data or null — and when `force` is not set while the
engine is disabled, `fetch` resolves to null immediately without invoking the
fetcher or mutating state or transients. -/
theorem fetch_never_rejects (cfg : Config TData) (st : StoreState TData)
    (tr : Transients) (params? : Option Params) (options? : Option FetchOptions)
    (now : Int) (outcome : FetchOutcome TData) (freshId : Nat) :
    (∀ v, (fetch cfg st tr params? options? now outcome freshId).ret = .settled v →
      ∃ d, v = Except.ok d)
    ∧ (optForce options? = false → tr.smEnabled = false →
        (fetch cfg st tr params? options? now outcome freshId).ret
          = FetchRet.settled (Except.ok none)
        ∧ (fetch cfg st tr params? options? now outcome freshId).st = st
        ∧ (fetch cfg st tr params? options? now outcome freshId).tr = tr
        ∧ (fetch cfg st tr params? options? now outcome freshId).fetcherCalled
          = false) := by
  constructor
  · intro v hv
    simp only [fetch] at hv
    rcases hpre : (fetchPre cfg st tr params? options? now).outcome with _ | pid | w | _
    all_goals rw [hpre] at hv
    · simp only [FetchRet.settled.injEq] at hv
      exact ⟨none, hv.symm⟩
    · simp at hv
    · simp only [FetchRet.settled.injEq] at hv
      exact ⟨w, hv.symm⟩
    · simp only [FetchRet.settled.injEq] at hv
      obtain ⟨d, hd⟩ := fetchOperation_value_ok cfg
        (fetchPre cfg st tr params? options? now).st
        (fetchPre cfg st tr params? options? now).tr
        (getQueryKey (params?.getD cfg.resolvedParams))
        (params?.getD cfg.resolvedParams) options? (optSkip options?) outcome now
      exact ⟨d, hv ▸ hd⟩
  · intro hfo hsm
    simp [fetch, fetchPre, hfo, hsm]

/-- Witness for C2: a disabled engine with a pending success outcome. -/
theorem fetch_never_rejects_witness :
    optForce none = false
    ∧ ({ smEnabled := false } : Transients).smEnabled = false
    ∧ (fetch cfgC7 stC7 { smEnabled := false } none none 60
        (.success (5 : Int)) 0).ret = FetchRet.settled (Except.ok none)
    ∧ (fetch cfgC7 stC7 { smEnabled := false } none none 60
        (.success (5 : Int)) 0).fetcherCalled = false := by
  have h := (fetch_never_rejects cfgC7 stC7 { smEnabled := false } none none 60
    (.success (5 : Int)) 0).2 rfl rfl
  exact ⟨rfl, rfl, h.1, h.2.2.2⟩

/-- C1 (amended): when the engine is enabled, a `fetch` call made while a
previous fetch for the same query key is in flight (`activeFetch` holds a
promise for that key and status is `loading`) with `force` unset returns the
very same promise object, and the fetcher is not invoked a second time. -/
theorem fetch_dedup_inflight (cfg : Config TData) (st : StoreState TData)
    (tr : Transients) (params? : Option Params) (options? : Option FetchOptions)
    (now : Int) (outcome : FetchOutcome TData) (freshId : Nat) (pid : Nat)
    (hsm : tr.smEnabled = true)
    (haf : tr.activeFetch
      = some { key := getQueryKey (params?.getD cfg.resolvedParams),
               promise := some pid })
    (hld : st.status = QueryStatus.loading)
    (hfo : optForce options? = false) :
    (fetch cfg st tr params? options? now outcome freshId).ret = .promiseOf pid
    ∧ (fetch cfg st tr params? options? now outcome freshId).fetcherCalled = false
    ∧ (fetch cfg st tr params? options? now outcome freshId).st = st
    ∧ (fetch cfg st tr params? options? now outcome freshId).tr = tr := by
  simp [fetch, fetchPre, hsm, haf, hld, hfo]

/-- Parameters for the C1 counterexample. -/
def pC1 : Params := [("id", JVal.s "a")]

/-- Configuration for the C1 counterexample. -/
def cfgC1 : Config Int := { resolvedParams := pC1 }

/-- State for the C1 counterexample: a fetch for the current key is loading. -/
def stC1 : StoreState Int :=
  { enabled := false, error := none, lastFetchedAt := none, queryCache := [],
    queryKey := getQueryKey pC1, status := QueryStatus.loading }

/-- Transients for the C1 counterexample: the in-flight promise `42` exists
but the engine has been disabled mid-flight. -/
def trC1 : Transients :=
  { activeFetch := some { key := getQueryKey pC1, promise := some 42 },
    smEnabled := false, subscriptionCount := 1 }

/-- C1 counterexample: with an in-flight fetch for the current key, status
`loading` and `force` unset, a `fetch` call on a disabled engine returns a
fresh promise resolved with null — not the in-flight promise — because the
disabled check on line 700 precedes the deduplication check. -/
theorem fetch_dedup_fails_when_disabled :
    stC1.status = QueryStatus.loading
    ∧ trC1.activeFetch = some { key := getQueryKey pC1, promise := some 42 }
    ∧ optForce none = false
    ∧ (fetch cfgC1 stC1 trC1 none none 100 (.success 1) 7).ret
      = FetchRet.settled (Except.ok none)
    ∧ (fetch cfgC1 stC1 trC1 none none 100 (.success 1) 7).ret
      ≠ FetchRet.promiseOf 42 := by decide

/-- Witness for C1 at a concrete in-flight state with the engine enabled. -/
theorem fetch_dedup_inflight_witness :
    ({ trC1 with smEnabled := true } : Transients).smEnabled = true
    ∧ (fetch cfgC1 stC1 { trC1 with smEnabled := true } none none 100
        (.success (1 : Int)) 7).ret = FetchRet.promiseOf 42
    ∧ (fetch cfgC1 stC1 { trC1 with smEnabled := true } none none 100
        (.success (1 : Int)) 7).fetcherCalled = false := by
  have h := fetch_dedup_inflight cfgC1 stC1 { trC1 with smEnabled := true }
    none none 100 (.success (1 : Int)) 7 42 rfl (by decide) (by decide) rfl
  exact ⟨rfl, h.1, h.2.1⟩

/-- The prior retry count the error handler sees for `key` with caching
enabled: the entry's `errorInfo.retryCount`, defaulting to 0. -/
def priorRetryCount (st : StoreState TData) (key : String) : Nat :=
  (((alookup st.queryCache key).bind (fun en => en.errorInfo)).map
    (fun i => i.retryCount)).getD 0

/-- The cache entry C6 specifies the error handler to write for `key`,
phrased over the pre-state: `data` and `lastFetchedAt` carried over from the
existing entry, the recorded cache time preserved (or freshly resolved when
the entry is absent), and the retry count bumped to `prior + 1`, capped at
`maxRetries` once retries are exhausted. -/
def errorWrittenEntry (cfg : Config TData) (st : StoreState TData) (key : String)
    (params : Params) (e : ErrorObj) (now : Int) : CacheEntry TData :=
  { cacheTime := ((alookup st.queryCache key).map
      (fun en => en.cacheTime)).getD (cfg.cacheTime.resolve params)
    data := (alookup st.queryCache key).bind (fun en => en.data)
    errorInfo := some
      { error := e
        lastFailedAt := now
        retryCount :=
          if priorRetryCount st key < cfg.maxRetries
          then priorRetryCount st key + 1
          else cfg.maxRetries }
    lastFetchedAt := (alookup st.queryCache key).bind (fun en => en.lastFetchedAt) }

/-- C6 (amended): on every non-aborted, non-skip fetch failure with caching
enabled, the error handler writes the entry for the current key with
`retryCount` equal to the prior retry count plus one (or `maxRetries` when
retries are exhausted), preserves the entry's existing `data` and
`lastFetchedAt` fields, sets status to `error` and `state.error` to the typed
error, and leaves every other cache key unchanged. When caching is disabled
the handler reads the prior entry as absent, so the prior count is taken as 0
regardless of the stored entry. -/
theorem errorWrite_spec (cfg : Config TData) (st : StoreState TData)
    (tr : Transients) (key : String) (params : Params) (e : ErrorObj) (now : Int)
    (hna : isAbortError e = false) (hdc : cfg.disableCache = false) :
    alookup (handleFetchError cfg st tr key params false e now).st.queryCache key
      = some (errorWrittenEntry cfg st key params e now)
    ∧ (handleFetchError cfg st tr key params false e now).st.status
      = QueryStatus.error
    ∧ (handleFetchError cfg st tr key params false e now).st.error = some e
    ∧ ∀ k', k' ≠ key →
        alookup (handleFetchError cfg st tr key params false e now).st.queryCache k'
          = alookup st.queryCache k' := by
  simp only [handleFetchError, hna, Bool.false_eq_true, if_false, hdc]
  unfold errorWrittenEntry priorRetryCount
  split
  case isTrue hc =>
    refine ⟨?_, rfl, rfl, fun k' hk' => alookup_ainsert_ne _ _ _ _ hk'⟩
    rw [alookup_ainsert_self]
  case isFalse hc =>
    refine ⟨?_, rfl, rfl, fun k' hk' => alookup_ainsert_ne _ _ _ _ hk'⟩
    rw [alookup_ainsert_self]

/-- The error used by the C6 counterexample and witness. -/
def errC6 : ErrorObj := { name := "Error", message := "x" }

/-- Configuration for the C6 counterexample: caching disabled. -/
def cfgC6 : Config Int := { resolvedParams := [], disableCache := true }

/-- A cache entry recording one prior failure, with no data. -/
def entC6 : CacheEntry Int :=
  { cacheTime := Dur.fin 100
    data := none
    errorInfo := some { error := errC6, lastFailedAt := 50, retryCount := 1 }
    lastFetchedAt := none }

/-- State for the C6 counterexample: the cache already holds an error entry
for `"K"` with `retryCount = 1`, written by a previous failure (the error path
writes the cache even under `disableCache`). -/
def stC6 : StoreState Int :=
  { enabled := true, error := some errC6, lastFetchedAt := none,
    queryCache := [("K", entC6)],
    queryKey := "K", status := QueryStatus.loading }

/-- C6 counterexample: under `disableCache` the handler reads the prior entry
as `undefined` (line 941-943), so a second failure for `"K"` records
`retryCount = 1` again instead of the prior count plus one (`2`). -/
theorem errorWrite_ignores_prior_under_disableCache :
    ((alookup stC6.queryCache "K").bind
      (fun en => en.errorInfo.map (fun i => i.retryCount))) = some 1
    ∧ ((alookup (handleFetchError cfgC6 stC6 {} "K" [] false errC6 60).st.queryCache
        "K").bind (fun en => en.errorInfo.map (fun i => i.retryCount))) = some 1
    ∧ ((alookup (handleFetchError cfgC6 stC6 {} "K" [] false errC6 60).st.queryCache
        "K").bind (fun en => en.errorInfo.map (fun i => i.retryCount))) ≠ some 2 := by
  decide

/-- A cache entry holding data and one recorded failure. -/
def entC6w : CacheEntry Int :=
  { cacheTime := Dur.fin 100
    data := some 9
    errorInfo := some { error := errC6, lastFailedAt := 50, retryCount := 1 }
    lastFetchedAt := some 10 }

/-- State for the C6 witness: caching enabled, prior entry with data and one
recorded failure. -/
def stC6w : StoreState Int :=
  { enabled := true, error := some errC6, lastFetchedAt := some 10,
    queryCache := [("K", entC6w)],
    queryKey := "K", status := QueryStatus.loading }

/-- Cache entry expected after the failure recorded by the C6 witness. -/
def entC6wAfter : CacheEntry Int :=
  { cacheTime := Dur.fin 100
    data := some 9
    errorInfo := some { error := errC6, lastFailedAt := 60, retryCount := 2 }
    lastFetchedAt := some 10 }

/-- Witness for C6: with caching enabled the second failure increments the
prior retry count and preserves `data` and `lastFetchedAt`. -/
theorem errorWrite_spec_witness :
    isAbortError errC6 = false
    ∧ alookup (handleFetchError cfgC7 stC6w {} "K" [] false errC6 60).st.queryCache "K"
      = some entC6wAfter
    ∧ (handleFetchError cfgC7 stC6w {} "K" [] false errC6 60).st.status
      = QueryStatus.error := by
  have h := errorWrite_spec cfgC7 stC6w {} "K" [] errC6 60 (by decide) rfl
  exact ⟨by decide, h.1.trans (by decide), h.2.1⟩

/-- The store's `initialData` (lines 578-585): idle, empty cache, empty key. -/
def initialState (cfg : Config TData) : StoreState TData :=
  { enabled := cfg.initialEnabled, error := none, lastFetchedAt := none,
    queryCache := [], queryKey := "", status := QueryStatus.idle }

/-- The state written by `reset()` (lines 1107-1113): `initialData` with the
query key recomputed from the currently resolved params. -/
def resetState (cfg : Config TData) (st : StoreState TData) : StoreState TData :=
  { st with
    enabled := cfg.initialEnabled
    error := none
    lastFetchedAt := none
    queryCache := []
    queryKey := getQueryKey cfg.resolvedParams
    status := QueryStatus.idle }

/-- The atomic state transitions the engine performs on the observable store
state: a full `fetch` observed at settlement, the synchronous prefix of a
`fetch` observed mid-flight, the `queryKey` writes of `onParamChange` and
`onSubscribe`, the reactive or user-driven `enabled` writes, and `reset()`. -/
inductive Step (cfg : Config TData) : StoreState TData → StoreState TData → Prop where
  | fetchStep (st : StoreState TData) (tr : Transients) (params? : Option Params)
      (options? : Option FetchOptions) (now : Int) (outcome : FetchOutcome TData)
      (freshId : Nat) :
      Step cfg st (fetch cfg st tr params? options? now outcome freshId).st
  | preStep (st : StoreState TData) (tr : Transients) (params? : Option Params)
      (options? : Option FetchOptions) (now : Int) :
      Step cfg st (fetchPre cfg st tr params? options? now).st
  | queryKeySet (st : StoreState TData) (k : String) :
      Step cfg st { st with queryKey := k }
  | enabledSet (st : StoreState TData) (b : Bool) :
      Step cfg st { st with enabled := b }
  | resetStep (st : StoreState TData) :
      Step cfg st (resetState cfg st)

/-- Reachability of a store state from the initial state through engine
transitions. -/
def Reachable (cfg : Config TData) (st : StoreState TData) : Prop :=
  Relation.ReflTransGen (Step cfg) (initialState cfg) st

/-- The C5 invariant: whenever status is `error`, some cache entry records the
error with a retry count in `[1, maxRetries]`. -/
def ErrInv (cfg : Config TData) (st : StoreState TData) : Prop :=
  st.status = QueryStatus.error →
    ∃ k en i, alookup st.queryCache k = some en ∧ en.errorInfo = some i
      ∧ 1 ≤ i.retryCount ∧ i.retryCount ≤ cfg.maxRetries

theorem clearActiveFetchFinally_st (skip : Bool) (r : OpResult TData) :
    (clearActiveFetchFinally skip r).st = r.st := by
  unfold clearActiveFetchFinally
  split <;> rfl

theorem successCommit_status (cfg : Config TData) (st : StoreState TData)
    (tr : Transients) (key : String) (params : Params)
    (options? : Option FetchOptions) (d : TData) (now : Int)
    (hsd : cfg.setData = none) :
    (successCommit cfg st tr key params options? d now).st.status
      = QueryStatus.success := by
  simp only [successCommit, hsd, pruneCache]
  repeat' split
  all_goals rfl

theorem fetchPre_cache_and_status (cfg : Config TData) (st : StoreState TData)
    (tr : Transients) (params? : Option Params) (options? : Option FetchOptions)
    (now : Int) :
    (fetchPre cfg st tr params? options? now).st.queryCache = st.queryCache
    ∧ ((fetchPre cfg st tr params? options? now).st.status = st.status
        ∨ (fetchPre cfg st tr params? options? now).st.status
          = QueryStatus.loading) := by
  simp only [fetchPre]
  repeat' split
  all_goals simp

theorem errInv_handleFetchError (cfg : Config TData) (st : StoreState TData)
    (tr : Transients) (key : String) (params : Params) (skip : Bool)
    (e : ErrorObj) (now : Int) (hmr : 1 ≤ cfg.maxRetries)
    (hinv : ErrInv cfg st) :
    ErrInv cfg (handleFetchError cfg st tr key params skip e now).st := by
  simp only [handleFetchError]
  split
  · exact hinv
  split
  · exact hinv
  split <;> split
  next hdc hc =>
    exact fun _ => ⟨key, _, _, alookup_ainsert_self _ _ _, rfl,
      Nat.succ_le_succ (Nat.zero_le _), hc⟩
  next hdc hc =>
    exact fun _ => ⟨key, _, _, alookup_ainsert_self _ _ _, rfl, hmr, le_refl _⟩
  next hdc hc =>
    exact fun _ => ⟨key, _, _, alookup_ainsert_self _ _ _, rfl,
      Nat.succ_le_succ (Nat.zero_le _), hc⟩
  next hdc hc =>
    exact fun _ => ⟨key, _, _, alookup_ainsert_self _ _ _, rfl, hmr, le_refl _⟩

theorem errInv_successCommit (cfg : Config TData) (st : StoreState TData)
    (tr : Transients) (key : String) (params : Params)
    (options? : Option FetchOptions) (d : TData) (now : Int)
    (hsd : cfg.setData = none) :
    ErrInv cfg (successCommit cfg st tr key params options? d now).st := by
  intro h
  rw [successCommit_status cfg st tr key params options? d now hsd] at h
  exact QueryStatus.noConfusion h

theorem errInv_fetchPre (cfg : Config TData) (st : StoreState TData)
    (tr : Transients) (params? : Option Params) (options? : Option FetchOptions)
    (now : Int) (hinv : ErrInv cfg st) :
    ErrInv cfg (fetchPre cfg st tr params? options? now).st := by
  intro h
  obtain ⟨hc, hs⟩ := fetchPre_cache_and_status cfg st tr params? options? now
  rw [hc]
  rcases hs with hs | hs
  · exact hinv (hs.symm.trans h)
  · rw [hs] at h
    exact QueryStatus.noConfusion h

theorem errInv_fetch (cfg : Config TData) (st : StoreState TData)
    (tr : Transients) (params? : Option Params) (options? : Option FetchOptions)
    (now : Int) (outcome : FetchOutcome TData) (freshId : Nat)
    (hmr : 1 ≤ cfg.maxRetries) (hsd : cfg.setData = none)
    (hinv : ErrInv cfg st) :
    ErrInv cfg (fetch cfg st tr params? options? now outcome freshId).st := by
  have hpreInv := errInv_fetchPre cfg st tr params? options? now hinv
  simp only [fetch]
  rcases hpre : (fetchPre cfg st tr params? options? now).outcome with _ | pid | w | _
  · exact hpreInv
  · exact hpreInv
  · exact hpreInv
  · simp only [fetchOperation]
    rw [clearActiveFetchFinally_st]
    cases haw : awaitFetch cfg (params?.getD cfg.resolvedParams) outcome with
    | error e => exact errInv_handleFetchError _ _ _ _ _ _ _ _ hmr hpreInv
    | ok d =>
      cases hskip : optSkip options? with
      | true => simpa using hpreInv
      | false =>
        simp only [Bool.false_eq_true, if_false]
        exact errInv_successCommit _ _ _ _ _ _ _ _ hsd

/-- C5 (amended): provided `maxRetries ≥ 1` and no `setData` callback is
configured, every reachable state with status `error` holds a cache entry
recording the error — written at the key of the fetch that failed, which need
not equal the store's current `queryKey` — whose `errorInfo` is non-null with
`retryCount` in the closed interval `[1, maxRetries]`. -/
theorem errorStatus_entry_invariant (cfg : Config TData) (st : StoreState TData)
    (hmr : 1 ≤ cfg.maxRetries) (hsd : cfg.setData = none)
    (hr : Reachable cfg st) (he : st.status = QueryStatus.error) :
    ∃ k en i, alookup st.queryCache k = some en ∧ en.errorInfo = some i
      ∧ 1 ≤ i.retryCount ∧ i.retryCount ≤ cfg.maxRetries := by
  have hinv : ErrInv cfg st := by
    clear he
    unfold Reachable at hr
    induction hr with
    | refl => intro h; exact QueryStatus.noConfusion h
    | tail hab hstep ih =>
      cases hstep with
      | fetchStep tr params? options? now outcome freshId =>
        exact errInv_fetch cfg _ tr params? options? now outcome freshId hmr hsd ih
      | queryKeySet k => exact fun h => ih h
      | enabledSet b => exact fun h => ih h
      | resetStep => exact fun h => QueryStatus.noConfusion h
      | preStep tr params? options? now =>
        exact errInv_fetchPre cfg _ tr params? options? now ih
  exact hinv he

/-- Parameters whose key differs from the C5 counterexample's current key. -/
def pC5A : Params := [("p", JVal.s "a")]

/-- Parameters of the failing fetch in the C5 counterexample. -/
def pC5B : Params := [("p", JVal.s "b")]

/-- Configuration for the C5 counterexample and witness. -/
def cfgC5 : Config Int := { resolvedParams := pC5A }

/-- Transients for the C5 counterexample: enabled, no subscribers. -/
def trC5 : Transients := { smEnabled := true, subscriptionCount := 0 }

/-- The error of the C5 counterexample. -/
def errC5 : ErrorObj := { name := "Error", message := "x" }

/-- The state after `onSubscribe` has aligned the query key with the resolved
params. -/
def stMidC5 : StoreState Int := { initialState cfgC5 with queryKey := getQueryKey pC5A }

/-- The state after a failing explicit fetch for the params of key B. -/
def stErrC5 : StoreState Int :=
  (fetch cfgC5 stMidC5 trC5 (some pC5B) none 100 (.failure errC5) 0).st

/-- C5 counterexample: a reachable state whose status is `error` while the
cache holds no entry at the current `queryKey` — an explicit `fetch` with
params for a different key failed, and without `keepPreviousData` the error
write targets the fetch's key, not the state's `queryKey`. -/
theorem errorStatus_without_currentKey_entry :
    Reachable cfgC5 stErrC5
    ∧ stErrC5.status = QueryStatus.error
    ∧ alookup stErrC5.queryCache stErrC5.queryKey = none := by
  refine ⟨?_, by decide, by decide⟩
  exact Relation.ReflTransGen.tail
    (Relation.ReflTransGen.single (Step.queryKeySet (initialState cfgC5) (getQueryKey pC5A)))
    (Step.fetchStep stMidC5 trC5 (some pC5B) none 100 (.failure errC5) 0)

/-- Witness for C5 at the concrete reachable error state of the
counterexample's run: the entry recording the failure exists under the failed
fetch's key with retry count 1. -/
theorem errorStatus_entry_invariant_witness :
    1 ≤ cfgC5.maxRetries
    ∧ stErrC5.status = QueryStatus.error
    ∧ ∃ k en i, alookup stErrC5.queryCache k = some en ∧ en.errorInfo = some i
        ∧ 1 ≤ i.retryCount ∧ i.retryCount ≤ cfgC5.maxRetries := by
  refine ⟨by decide, by decide, ?_⟩
  refine errorStatus_entry_invariant cfgC5 stErrC5 (by decide) rfl ?_ (by decide)
  exact Relation.ReflTransGen.tail
    (Relation.ReflTransGen.single (Step.queryKeySet (initialState cfgC5) (getQueryKey pC5A)))
    (Step.fetchStep stMidC5 trC5 (some pC5B) none 100 (.failure errC5) 0)

end QueryStore
